import Mathlib

/-!
Verification of the WarMAC command-line parser (`src/warmac/cli_parser.py`).

The development shallowly embeds the two specified components:

* the bounded integer validator `str_to_int_bounds_check`
  (cli_parser.py lines 141-160), together with the fragment of Python's
  `int(str)` parsing semantics it relies on, and
* the command router `handle_input` (cli_parser.py lines 417-441),
  together with the behaviour of the `argparse`-based parser built by
  `_create_parser` (lines 188-414) for the exact option schema that
  function configures.

The embedding models the ASCII fragment of Python string handling:
`int()` accepts surrounding ASCII whitespace, an optional single leading
sign, and ASCII decimal digits with single underscores between digits;
`str.strip` removes ASCII whitespace and `str.lower` lowercases ASCII
letters.  (CPython additionally accepts some Unicode digit and space
characters; no input considered in this development contains such
characters.)
-/

/-- ASCII whitespace recognised by Python's `int()` and `str.strip`:
space, tab, newline, carriage return, vertical tab, form feed. -/
def isPySpace (c : Char) : Bool :=
  c.toNat == 32 || c.toNat == 9 || c.toNat == 10 ||
  c.toNat == 13 || c.toNat == 11 || c.toNat == 12

/-- ASCII decimal digit test (codepoints 48-57). -/
def isAsciiDigitChar (c : Char) : Bool :=
  decide (48 ≤ c.toNat) && decide (c.toNat ≤ 57)

/-- Numeric value of an ASCII digit character. -/
def digitVal (c : Char) : Nat := c.toNat - 48

/-- The ASCII character for a single decimal digit `d < 10`. -/
def digitChar (d : Nat) : Char := Char.ofNat (48 + d)

/-- Strip leading and trailing Python whitespace from a character list,
as Python's `int()` does before parsing (and as `str.strip()` does). -/
def stripPySpace (l : List Char) : List Char :=
  ((l.dropWhile isPySpace).reverse.dropWhile isPySpace).reverse

/-- Continue parsing a run of decimal digits after at least one digit has
been consumed.  A single underscore is permitted between two digits
(Python 3.6+ digit grouping); a trailing or doubled underscore fails.
The flag records that the previous character was an underscore, in which
case the run may not end and the next character must be a digit. -/
def pyDigitsGo : List Char → Nat → Bool → Option Nat
  | [], acc, afterUnd => if afterUnd then none else some acc
  | c :: rest, acc, afterUnd =>
    if isAsciiDigitChar c then pyDigitsGo rest (acc * 10 + digitVal c) false
    else if c = '_' then
      if afterUnd then none else pyDigitsGo rest acc true
    else none

/-- Parse a nonempty run of decimal digits (with optional single
underscores between digits) to its value; the first character must be a
digit. -/
def pyDigits : List Char → Option Nat
  | [] => none
  | c :: rest =>
    if isAsciiDigitChar c then pyDigitsGo rest (digitVal c) false else none

/-- Parse an optionally signed digit run (whitespace already stripped). -/
def pyIntSigned : List Char → Option Int
  | [] => none
  | c :: rest =>
    if c = '+' then (pyDigits rest).map Int.ofNat
    else if c = '-' then (pyDigits rest).map (fun k => -(Int.ofNat k))
    else (pyDigits (c :: rest)).map Int.ofNat

/-- Python `int(str)` on a character list: strip surrounding whitespace,
allow one optional `+` or `-` sign, then require a digit run.  Returns
`none` exactly when CPython raises `ValueError`. -/
def pyIntCore (l : List Char) : Option Int :=
  pyIntSigned (stripPySpace l)

/-- Python `int(str)` (ASCII fragment): the integer denoted by `s`, or
`none` when `int` would raise `ValueError`. -/
def pyIntOfString (s : String) : Option Int := pyIntCore s.data

/-- Decimal digit characters of `n`, most significant first; `fuel`
bounds the recursion depth (any `fuel > n` is sufficient). -/
def natDecCharsAux : Nat → Nat → List Char
  | 0, _ => []
  | fuel + 1, n =>
    if n < 10 then [digitChar n]
    else natDecCharsAux fuel (n / 10) ++ [digitChar (n % 10)]

/-- Decimal digit characters of `n`, most significant first. -/
def natDecChars (n : Nat) : List Char := natDecCharsAux (n + 1) n

/-- Python `str(int)`: plain decimal rendering, `-` prefix for negative
values, no `+` sign and no underscores. -/
def pyStrOfInt (i : Int) : String :=
  if i < 0 then ⟨'-' :: natDecChars i.natAbs⟩ else ⟨natDecChars i.natAbs⟩

/-- Error message raised by `str_to_int_bounds_check`
(cli_parser.py line 159):
`"<val>" is not an integer in the valid range of [<min_val>, <max_val>).` -/
def boundsMsg (val : String) (min_val max_val : Int) : String :=
  "\"" ++ val ++ "\" is not an integer in the valid range of [" ++
    pyStrOfInt min_val ++ ", " ++ pyStrOfInt max_val ++ ")."

/-- Embedding of `str_to_int_bounds_check` (cli_parser.py lines 141-160):
cast `val` with Python `int()`; succeed iff that cast succeeds with a
value in `[min_val, max_val)`, otherwise fail with the
`argparse.ArgumentTypeError` message. -/
def str_to_int_bounds_check (val : String) (min_val max_val : Int) :
    Except String Int :=
  match pyIntOfString val with
  | some n =>
    if min_val ≤ n ∧ n < max_val then .ok n
    else .error (boundsMsg val min_val max_val)
  | none => .error (boundsMsg val min_val max_val)

/-! Decimal rendering/parsing roundtrip lemmas. -/

theorem digitChar_spec : ∀ d, d < 10 →
    isAsciiDigitChar (digitChar d) = true ∧ digitVal (digitChar d) = d := by
  decide

theorem natDecCharsAux_digits (fuel : Nat) :
    ∀ n c, c ∈ natDecCharsAux fuel n → isAsciiDigitChar c = true := by
  induction fuel with
  | zero => intro n c h; simp [natDecCharsAux] at h
  | succ f ih =>
    intro n c h
    simp only [natDecCharsAux] at h
    by_cases h10 : n < 10
    · rw [if_pos h10] at h
      simp only [List.mem_singleton] at h
      subst h
      exact (digitChar_spec n h10).1
    · rw [if_neg h10] at h
      rcases List.mem_append.mp h with h1 | h1
      · exact ih _ _ h1
      · simp only [List.mem_singleton] at h1
        subst h1
        exact (digitChar_spec (n % 10) (Nat.mod_lt _ (by omega))).1

theorem natDecCharsAux_ne_nil (f n : Nat) : natDecCharsAux (f + 1) n ≠ [] := by
  simp only [natDecCharsAux]
  by_cases h10 : n < 10
  · rw [if_pos h10]; simp
  · rw [if_neg h10]; simp

theorem pyDigits_natDecCharsAux (fuel : Nat) :
    ∀ n rest, n < fuel →
      pyDigits (natDecCharsAux fuel n ++ rest) = pyDigitsGo rest n false := by
  induction fuel with
  | zero => intro n rest h; omega
  | succ f ih =>
    intro n rest h
    by_cases h10 : n < 10
    · simp only [natDecCharsAux, if_pos h10, List.cons_append, List.nil_append]
      have he : pyDigits (digitChar n :: rest)
          = pyDigitsGo rest (digitVal (digitChar n)) false := by
        simp [pyDigits, (digitChar_spec n h10).1]
      rw [he, (digitChar_spec n h10).2]
    · have hdiv : n / 10 < n := Nat.div_lt_self (by omega) (by omega)
      simp only [natDecCharsAux, if_neg h10, List.append_assoc,
        List.cons_append, List.nil_append]
      rw [ih (n / 10) (digitChar (n % 10) :: rest) (by omega)]
      have hm : n % 10 < 10 := Nat.mod_lt _ (by omega)
      have he : pyDigitsGo (digitChar (n % 10) :: rest) (n / 10) false
          = pyDigitsGo rest (n / 10 * 10 + digitVal (digitChar (n % 10))) false := by
        simp [pyDigitsGo, (digitChar_spec (n % 10) hm).1]
      rw [he, (digitChar_spec (n % 10) hm).2]
      congr 2
      omega

theorem pyDigits_natDecChars (n : Nat) : pyDigits (natDecChars n) = some n := by
  have h := pyDigits_natDecCharsAux (n + 1) n [] (by omega)
  simpa [natDecChars, pyDigitsGo] using h

theorem digit_not_space {c : Char} (h : isAsciiDigitChar c = true) :
    isPySpace c = false := by
  simp only [isAsciiDigitChar, Bool.and_eq_true, decide_eq_true_eq] at h
  simp only [isPySpace, Bool.or_eq_false_iff, beq_eq_false_iff_ne, ne_eq]
  omega

theorem stripPySpace_eq_self (l : List Char)
    (h : ∀ c ∈ l, isPySpace c = false) : stripPySpace l = l := by
  have h1 : l.dropWhile isPySpace = l := by
    cases l with
    | nil => rfl
    | cons c t => simp [List.dropWhile_cons, h c (List.mem_cons_self c t)]
  have h2 : l.reverse.dropWhile isPySpace = l.reverse := by
    cases hr : l.reverse with
    | nil => rfl
    | cons c t =>
      have hc : c ∈ l := by
        have : c ∈ l.reverse := by rw [hr]; exact List.mem_cons_self c t
        exact List.mem_reverse.mp this
      simp [List.dropWhile_cons, h c hc]
  unfold stripPySpace
  rw [h1, h2, List.reverse_reverse]

theorem pyInt_roundtrip (i : Int) : pyIntOfString (pyStrOfInt i) = some i := by
  by_cases hneg : i < 0
  · show pyIntCore (pyStrOfInt i).data = some i
    rw [pyStrOfInt, if_pos hneg]
    show pyIntCore ('-' :: natDecChars i.natAbs) = some i
    have hall : ∀ c ∈ '-' :: natDecChars i.natAbs, isPySpace c = false := by
      intro c hc
      rcases List.mem_cons.mp hc with rfl | hc
      · decide
      · exact digit_not_space (natDecCharsAux_digits _ _ c hc)
    rw [pyIntCore, stripPySpace_eq_self _ hall]
    have he : pyIntSigned ('-' :: natDecChars i.natAbs)
        = (pyDigits (natDecChars i.natAbs)).map (fun k => -(Int.ofNat k)) := by
      simp [pyIntSigned]
    rw [he, pyDigits_natDecChars]
    have hv : -Int.ofNat i.natAbs = i := by
      rw [Int.ofNat_eq_coe]; omega
    exact congrArg some hv
  · show pyIntCore (pyStrOfInt i).data = some i
    rw [pyStrOfInt, if_neg hneg]
    show pyIntCore (natDecChars i.natAbs) = some i
    have hall : ∀ c ∈ natDecChars i.natAbs, isPySpace c = false :=
      fun c hc => digit_not_space (natDecCharsAux_digits _ _ c hc)
    have hne : natDecChars i.natAbs ≠ [] :=
      natDecCharsAux_ne_nil i.natAbs i.natAbs
    obtain ⟨c, t, hct⟩ := List.exists_cons_of_ne_nil hne
    have hdig : isAsciiDigitChar c = true := by
      apply natDecCharsAux_digits (i.natAbs + 1) i.natAbs
      show c ∈ natDecChars i.natAbs
      rw [hct]
      exact List.mem_cons_self c t
    have hplus : ¬c = '+' := by
      intro he; subst he; exact absurd hdig (by decide)
    have hminus : ¬c = '-' := by
      intro he; subst he; exact absurd hdig (by decide)
    rw [pyIntCore, stripPySpace_eq_self _ hall, hct]
    have he : pyIntSigned (c :: t) = (pyDigits (c :: t)).map Int.ofNat := by
      simp [pyIntSigned, hplus, hminus]
    rw [he, ← hct, pyDigits_natDecChars]
    have hv : Int.ofNat i.natAbs = i := by
      rw [Int.ofNat_eq_coe]; omega
    exact congrArg some hv

/-! Claims about the bounded integer parser. -/

/-- C2: `str_to_int_bounds_check val min_val max_val` returns `n` if and
only if Python `int(val)` parses `val` to `n` and `min_val ≤ n < max_val`;
moreover when `min_val < max_val`, the rendering `str(min_val)` succeeds
returning `min_val` while `str(max_val)` fails (half-open upper bound). -/
theorem str_to_int_bounds_check_spec :
    (∀ (val : String) (min_val max_val n : Int),
      str_to_int_bounds_check val min_val max_val = .ok n ↔
        (pyIntOfString val = some n ∧ min_val ≤ n ∧ n < max_val)) ∧
    (∀ min_val max_val : Int, min_val < max_val →
      str_to_int_bounds_check (pyStrOfInt min_val) min_val max_val
        = .ok min_val ∧
      ∀ n : Int,
        str_to_int_bounds_check (pyStrOfInt max_val) min_val max_val
          ≠ .ok n) := by
  have main : ∀ (val : String) (mn mx n : Int),
      str_to_int_bounds_check val mn mx = .ok n ↔
        (pyIntOfString val = some n ∧ mn ≤ n ∧ n < mx) := by
    intro val mn mx n
    cases h : pyIntOfString val with
    | none =>
      have hred : str_to_int_bounds_check val mn mx
          = Except.error (boundsMsg val mn mx) := by
        unfold str_to_int_bounds_check; rw [h]
      rw [hred]
      simp
    | some m =>
      have hred : str_to_int_bounds_check val mn mx
          = if mn ≤ m ∧ m < mx then Except.ok m
            else Except.error (boundsMsg val mn mx) := by
        unfold str_to_int_bounds_check; rw [h]
      rw [hred]
      by_cases hb : mn ≤ m ∧ m < mx
      · rw [if_pos hb]
        constructor
        · intro he
          injection he with hmn
          subst hmn
          exact ⟨rfl, hb.1, hb.2⟩
        · rintro ⟨hs, _, _⟩
          injection hs with hmn
          subst hmn
          rfl
      · rw [if_neg hb]
        constructor
        · intro he; exact Except.noConfusion he
        · rintro ⟨hs, h1, h2⟩
          injection hs with hmn
          subst hmn
          exact absurd ⟨h1, h2⟩ hb
  refine ⟨main, fun mn mx hlt => ⟨?_, ?_⟩⟩
  · exact (main _ mn mx mn).mpr ⟨pyInt_roundtrip mn, le_refl mn, hlt⟩
  · intro n he
    obtain ⟨hp, h1, h2⟩ := (main _ mn mx n).mp he
    rw [pyInt_roundtrip mx] at hp
    injection hp with hmx
    omega

/-- Witness for the bounded-integer parser contract on the range [1, 60). -/
theorem str_to_int_bounds_check_spec_witness :
    str_to_int_bounds_check (pyStrOfInt 1) 1 60 = .ok 1 ∧
    str_to_int_bounds_check (pyStrOfInt 60) 1 60 ≠ .ok 60 :=
  ⟨(str_to_int_bounds_check_spec.2 1 60 (by decide)).1,
   (str_to_int_bounds_check_spec.2 1 60 (by decide)).2 60⟩

/-- C3: every string that Python `int()` rejects makes
`str_to_int_bounds_check` fail with the `ArgumentTypeError` message for
every range, never returning a value; in particular "1.5", "33foobar",
"True" and "None" are all rejected by the integer parse. -/
theorem str_to_int_bounds_check_rejects_noninteger :
    (∀ (val : String) (min_val max_val : Int), pyIntOfString val = none →
      str_to_int_bounds_check val min_val max_val
        = .error (boundsMsg val min_val max_val)) ∧
    pyIntOfString "1.5" = none ∧ pyIntOfString "33foobar" = none ∧
    pyIntOfString "True" = none ∧ pyIntOfString "None" = none := by
  refine ⟨fun val mn mx h => ?_, by decide, by decide, by decide, by decide⟩
  unfold str_to_int_bounds_check
  rw [h]

/-- Witness: "1.5" is rejected for the range [1, 10). -/
theorem str_to_int_bounds_check_rejects_noninteger_witness :
    str_to_int_bounds_check "1.5" 1 10 = .error (boundsMsg "1.5" 1 10) :=
  str_to_int_bounds_check_rejects_noninteger.1 "1.5" 1 10 (by decide)

/-- C4: when `min_val ≥ max_val` the range `[min_val, max_val)` is empty
and `str_to_int_bounds_check` fails on every input string. -/
theorem str_to_int_bounds_check_empty_range
    (val : String) (min_val max_val : Int) (h : min_val ≥ max_val) :
    str_to_int_bounds_check val min_val max_val
      = .error (boundsMsg val min_val max_val) := by
  cases hp : pyIntOfString val with
  | none => unfold str_to_int_bounds_check; rw [hp]
  | some n =>
    have hred : str_to_int_bounds_check val min_val max_val
        = if min_val ≤ n ∧ n < max_val then Except.ok n
          else Except.error (boundsMsg val min_val max_val) := by
      unfold str_to_int_bounds_check; rw [hp]
    rw [hred, if_neg]
    rintro ⟨h1, h2⟩
    omega

/-- Witness: parsing "5" against the empty range [10, 1) fails. -/
theorem str_to_int_bounds_check_empty_range_witness :
    str_to_int_bounds_check "5" 10 1 = .error (boundsMsg "5" 10 1) :=
  str_to_int_bounds_check_empty_range "5" 10 1 (by decide)

/-- C10: `str_to_int_bounds_check` inherits Python `int()` leniency:
surrounding whitespace, an explicit leading `+` sign, and underscore
digit separators are accepted, with the denoted value returned when it
lies in the range. -/
theorem str_to_int_bounds_check_python_int_leniency :
    str_to_int_bounds_check " 5 " 1 10 = .ok 5 ∧
    str_to_int_bounds_check "+5" 1 10 = .ok 5 ∧
    str_to_int_bounds_check "1_0" 1 60 = .ok 10 := by
  refine ⟨by rfl, by rfl, by rfl⟩

/-!
Embedding of the command router.

`_create_parser` (cli_parser.py lines 188-414) builds an
`argparse`-based parser: a top level with options `-h, --help` and
`-V, --version` plus a subcommand positional (`dest="subparser"`,
`metavar=""`), an `average` subcommand, and a `help` subcommand.
`handle_input` (lines 417-441) parses the tokens and post-processes the
namespace.  The definitions below model the behaviour of CPython
`argparse` for exactly this configuration: option tokens are recognised
by exact match, by unambiguous long-option abbreviation, by `--opt=value`
splitting and by short-option clusters with attached values; a token
equal to `--` switches to positional-only mode; a token matching
argparse's negative-number pattern or containing a space is treated as
positional; unrecognised option-like tokens are collected and reported
at the end as `unrecognized arguments` by the top-level parser; all
parser errors go through `WarMACParser.error` (lines 172-185), which
writes `"<usage>: error: <message>\n"` to stderr and exits with status
code 1 (the docstring of `WarMACParser` claims status code 2; the
implementation calls `self.exit(1, ...)`).  Help and version actions
print to stdout and exit 0.  Rendered help/version text is abstracted by
the `Output` constructors.
-/

/-- Output stream written to on termination. -/
inductive OutStream
  | stdout
  | stderr
deriving DecidableEq

/-- The three parsers whose rendered help text can be printed. -/
inductive ParserId
  | main
  | average
  | helpCmd
deriving DecidableEq

/-- What the process writes before terminating: some parser's help text,
the version string (`warmac 0.0.5`), or a formatted error message. -/
inductive Output
  | helpText (p : ParserId)
  | versionText
  | errText (s : String)
deriving DecidableEq

/-- Namespace produced by a successful parse of the `average`
subcommand, with the destinations configured in `_create_parser`. -/
structure ParsedCommand where
  subparser : String
  item : String
  statistic : String
  platform : String
  timerange : Int
  maxrank : Bool
  radiant : Bool
  use_buyers : Bool
  detailed_report : Bool
deriving DecidableEq

/-- `usage` of the top-level parser (cli_parser.py line 206). -/
def mainUsage : String := "warmac <command> [options]"

/-- `usage` of the `average` subparser (cli_parser.py lines 256-259). -/
def avgUsage : String :=
  "warmac average [-s <stat>] [-p <platform>] [-t <days>] [-m | -r] [-b] [-v] item"

/-- `usage` of the `help` subparser (cli_parser.py line 394). -/
def helpUsage : String := "warmac help subcommand"

/-- The error text written by `WarMACParser.error` (cli_parser.py
line 183): `f"{self.usage}: error: {message}\n"`. -/
def formatErr (usage msg : String) : String :=
  usage ++ ": error: " ++ msg ++ "\n"

/-- Default timerange (cli_parser.py line 38). -/
def DEFAULT_TIME : Int := 10

/-- Minimum accepted timerange (cli_parser.py line 266). -/
def min_time_range : Int := 1

/-- Maximum (exclusive) accepted timerange (cli_parser.py line 268). -/
def max_time_range : Int := 60

/-- Statistics accepted by `-s, --stats` (cli_parser.py line 264). -/
def avgFuncs : List String := ["median", "mean", "mode", "geometric"]

/-- Platforms accepted by `-p, --platform` (cli_parser.py line 203). -/
def platformChoices : List String := ["pc", "ps4", "xbox", "switch"]

/-- Recognised subcommand names (cli_parser.py line 396), which are also
the `choices` of the `help` subcommand's positional. -/
def _possible_subcommands : List String := ["average", "help"]

/-- ASCII lowering of one character, the fragment of Python `str.lower`
exercised by this program. -/
def asciiLowerChar (c : Char) : Char :=
  if 65 ≤ c.toNat ∧ c.toNat ≤ 90 then Char.ofNat (c.toNat + 32) else c

/-- Python `str.lower` (ASCII fragment). -/
def pyLower (s : String) : String := ⟨s.data.map asciiLowerChar⟩

/-- Python `str.strip` (ASCII fragment). -/
def pyStrip (s : String) : String := ⟨stripPySpace s.data⟩

/-- The conversion `lambda s: s.lower().strip()` used by `-s, --stats`
and `-p, --platform` (cli_parser.py lines 287 and 301). -/
def lowerStrip (s : String) : String := pyStrip (pyLower s)

/-- The conversion `lambda s: s.strip().lower()` used by the `help`
subcommand's positional (cli_parser.py line 400). -/
def stripLower (s : String) : String := pyLower (pyStrip s)

/-- Join strings as argparse renders a `choices` list:
`'median', 'mean', ...`. -/
def quoteJoin : List String → String
  | [] => ""
  | [s] => "\x27" ++ s ++ "\x27"
  | s :: rest => "\x27" ++ s ++ "\x27, " ++ quoteJoin rest

/-- argparse message for a value failing a `choices` check. -/
def invalidChoiceMsg (name val : String) (choices : List String) : String :=
  "argument " ++ name ++ ": invalid choice: \x27" ++ val ++
    "\x27 (choose from " ++ quoteJoin choices ++ ")"

/-- Join leftover tokens as argparse renders `unrecognized arguments`. -/
def joinSpaces : List String → String
  | [] => ""
  | [s] => s
  | s :: rest => s ++ " " ++ joinSpaces rest

/-- How one command-line token relates to a parser's option table
(argparse `_parse_optional` / `_get_option_tuples`): it is a positional
argument, an unrecognised option-like token (reported at the end), one
or more resolved option actions (a short-option cluster yields several;
a value attached with `=` or glued to a short option accompanies the
action), or an immediate resolution error (ambiguous abbreviation, or an
unknown character inside a short-option cluster). -/
inductive Resolution (α : Type)
  | positional
  | unknownOption
  | acts (l : List (α × Option String))
  | resolveFailure (msg : String)
deriving DecidableEq

/-- First value bound to an exactly matching key. -/
def lookupExact {α : Type} : List (String × α) → String → Option α
  | [], _ => none
  | (k, v) :: rest, key => if k = key then some v else lookupExact rest key

/-- Split a token at its first `=` (argparse `--opt=value` handling). -/
def splitAtEq (t : String) : String × Option String :=
  match t.data.dropWhile (fun c => c != '=') with
  | [] => (t, none)
  | _ :: rest => (⟨t.data.takeWhile (fun c => c != '=')⟩, some ⟨rest⟩)

/-- Does list `l` begin with the characters `p`? -/
def beginsWithChars : List Char → List Char → Bool
  | _, [] => true
  | [], _ :: _ => false
  | a :: as, b :: bs => a == b && beginsWithChars as bs

/-- Long options having `name` as a prefix (argparse abbreviation). -/
def longCandidates {α : Type} (longs : List (String × α)) (name : String) :
    List (String × α) :=
  longs.filter (fun p => beginsWithChars p.1.data name.data)

/-- argparse `_negative_number_matcher` body: digits, or digits with one
decimal point (`\d+` or `\d*\.\d+`). -/
def decimalLike (l : List Char) : Bool :=
  match l.dropWhile isAsciiDigitChar with
  | [] => !l.isEmpty
  | c :: frac => c == '.' && !frac.isEmpty && frac.all isAsciiDigitChar

/-- A token shaped like a negative number (`-\d+` or `-\d*\.\d+`); since
none of the parsers has a numeric-looking option string, argparse
classifies such tokens as positionals. -/
def isNegNumberTok (t : String) : Bool :=
  match t.data with
  | '-' :: rest => decimalLike rest
  | _ => false

/-- A token containing a space is classified as positional by argparse. -/
def hasSpaceChar (t : String) : Bool := t.data.any (fun c => c == ' ')

/-- Classification of a token that matched no option: negative numbers
and tokens containing spaces are positionals, the rest are unrecognised
option-like tokens. -/
def unknownFallback {α : Type} (t : String) : Resolution α :=
  if isNegNumberTok t then .positional
  else if hasSpaceChar t then .positional
  else .unknownOption

/-- Resolve the remaining characters of a short-option cluster such as
`-mr`: each character must name a zero-argument short option, except
that a value-taking short option ends the cluster and binds the leftover
characters (if any) as its value.  An unknown character produces
argparse's `ignored explicit argument` error attributed to the
previously resolved option. -/
def chainShorts {α : Type} (shorts : List (String × α)) (takesVal : α → Bool)
    (dispName : α → String) :
    α → List Char → List (α × Option String) → Resolution α
  | _, [], acc => .acts acc.reverse
  | prev, c :: cs, acc =>
    match lookupExact shorts ⟨['-', c]⟩ with
    | none =>
      .resolveFailure ("argument " ++ dispName prev ++
        ": ignored explicit argument \x27" ++ (⟨c :: cs⟩ : String) ++ "\x27")
    | some o =>
      if takesVal o then
        match cs with
        | [] => .acts ((o, none) :: acc).reverse
        | _ :: _ => .acts ((o, some ⟨cs⟩) :: acc).reverse
      else chainShorts shorts takesVal dispName o cs ((o, none) :: acc)

/-- Resolve one token against a parser's option table, following
argparse `_parse_optional`: exact matches first, then `--opt=value`
splitting and unambiguous long abbreviations, then short options with
glued values or clustered flags, then the negative-number and space
fallbacks. -/
def resolveTok {α : Type} (longs shorts : List (String × α))
    (takesVal : α → Bool) (dispName : α → String) (t : String) :
    Resolution α :=
  match t.data with
  | [] => .positional
  | c :: cs =>
    if c != '-' then .positional
    else
      match lookupExact (shorts ++ longs) t with
      | some o => .acts [(o, none)]
      | none =>
        match cs with
        | [] => .positional
        | c2 :: cs2 =>
          if c2 == '-' then
            match (splitAtEq t).2 with
            | some v =>
              match lookupExact longs (splitAtEq t).1 with
              | some o => .acts [(o, some v)]
              | none =>
                match longCandidates longs (splitAtEq t).1 with
                | [] => unknownFallback t
                | [(_, o)] => .acts [(o, some v)]
                | more =>
                  .resolveFailure ("ambiguous option: " ++ (splitAtEq t).1 ++
                    " could match " ++ joinSpaces (more.map (·.1)))
            | none =>
              match longCandidates longs t with
              | [] => unknownFallback t
              | [(_, o)] => .acts [(o, none)]
              | more =>
                .resolveFailure ("ambiguous option: " ++ t ++
                  " could match " ++ joinSpaces (more.map (·.1)))
          else
            match lookupExact shorts ⟨['-', c2]⟩ with
            | some o =>
              if takesVal o then .acts [(o, some ⟨cs2⟩)]
              else chainShorts shorts takesVal dispName o cs2 [(o, none)]
            | none => unknownFallback t

/-- Options of the top-level parser (cli_parser.py lines 223-236). -/
inductive MainOption
  | helpMain
  | versionMain
deriving DecidableEq

/-- Long option strings of the top-level parser. -/
def mainLongs : List (String × MainOption) :=
  [("--help", .helpMain), ("--version", .versionMain)]

/-- Short option strings of the top-level parser. -/
def mainShorts : List (String × MainOption) :=
  [("-h", .helpMain), ("-V", .versionMain)]

/-- Neither top-level option consumes a value. -/
def mainTakesVal : MainOption → Bool := fun _ => false

/-- argparse display name of a top-level option. -/
def mainDispName : MainOption → String
  | .helpMain => "-h/--help"
  | .versionMain => "-V/--version"

/-- Options of the `average` subparser (cli_parser.py lines 283-376). -/
inductive AvgOption
  | stats
  | platform
  | timerange
  | maxrank
  | radiant
  | buyers
  | detailed
  | helpA
deriving DecidableEq

/-- Long option strings of the `average` subparser. -/
def avgLongs : List (String × AvgOption) :=
  [("--stats", .stats), ("--platform", .platform), ("--timerange", .timerange),
   ("--maxrank", .maxrank), ("--radiant", .radiant), ("--buyers", .buyers),
   ("--detailed-report", .detailed), ("--help", .helpA)]

/-- Short option strings of the `average` subparser. -/
def avgShorts : List (String × AvgOption) :=
  [("-s", .stats), ("-p", .platform), ("-t", .timerange), ("-m", .maxrank),
   ("-r", .radiant), ("-b", .buyers), ("-d", .detailed), ("-h", .helpA)]

/-- Which `average` options consume a value. -/
def avgTakesVal : AvgOption → Bool
  | .stats => true
  | .platform => true
  | .timerange => true
  | _ => false

/-- argparse display name of an `average` option. -/
def avgDispName : AvgOption → String
  | .stats => "-s/--stats"
  | .platform => "-p/--platform"
  | .timerange => "-t/--timerange"
  | .maxrank => "-m/--maxrank"
  | .radiant => "-r/--radiant"
  | .buyers => "-b/--buyers"
  | .detailed => "-d/--detailed-report"
  | .helpA => "-h/--help"

/-- Options of the `help` subparser (cli_parser.py lines 407-412). -/
inductive HelpOption
  | helpHelp
deriving DecidableEq

/-- Long option strings of the `help` subparser. -/
def helpLongs : List (String × HelpOption) := [("--help", .helpHelp)]

/-- Short option strings of the `help` subparser. -/
def helpShorts : List (String × HelpOption) := [("-h", .helpHelp)]

/-- The `help` subparser's only option consumes no value. -/
def helpTakesVal : HelpOption → Bool := fun _ => false

/-- argparse display name of the `help` subparser's option. -/
def helpDispName : HelpOption → String := fun _ => "-h/--help"

/-- Token resolution against the top-level parser's option table. -/
def mainResolve (t : String) : Resolution MainOption :=
  resolveTok mainLongs mainShorts mainTakesVal mainDispName t

/-- Token resolution against the `average` subparser's option table. -/
def avgResolve (t : String) : Resolution AvgOption :=
  resolveTok avgLongs avgShorts avgTakesVal avgDispName t

/-- Token resolution against the `help` subparser's option table. -/
def helpResolve (t : String) : Resolution HelpOption :=
  resolveTok helpLongs helpShorts helpTakesVal helpDispName t

/-- Whether a resolution classifies the token as a positional, i.e. an
`A` in argparse's pattern; an option needing a value consumes the next
token only when it is classified this way. -/
def Resolution.isPositionalTok {α : Type} : Resolution α → Bool
  | .positional => true
  | _ => false

/-- Mutable parse state of the `average` subparser: the namespace fields
with their defaults (cli_parser.py lines 283-369), the record of which
mutually exclusive flag has been seen (argparse
`seen_non_default_actions`), and leftover tokens. -/
structure AvgState where
  item : Option String
  statistic : String
  platform : String
  timerange : Int
  maxrank : Bool
  radiant : Bool
  use_buyers : Bool
  detailed_report : Bool
  maxrankSeen : Bool
  radiantSeen : Bool
  extras : List String
deriving DecidableEq

/-- Initial `average` parse state holding the documented defaults. -/
def avgInit : AvgState :=
  { item := none, statistic := "median", platform := "pc",
    timerange := DEFAULT_TIME, maxrank := false, radiant := false,
    use_buyers := false, detailed_report := false, maxrankSeen := false,
    radiantSeen := false, extras := [] }

/-- Result of running one subparser: a process exit (help printed or
parse error), or a parsed namespace plus unrecognised leftovers that the
top-level parser will report. -/
inductive SubParse
  | exited (code : Nat) (stream : OutStream) (out : Output)
  | done (c : ParsedCommand) (extras : List String)
deriving DecidableEq

/-- Result of running the `help` subparser. -/
inductive HelpParse
  | exited (code : Nat) (stream : OutStream) (out : Output)
  | done (sub : Option String) (extras : List String)
deriving DecidableEq

/-- A parse error raised inside the `average` subparser goes through
`WarMACParser.error` with the subparser's usage string: the message
`"<usage>: error: <message>\n"` is written to stderr and the process
exits with status code 1 (cli_parser.py line 183). -/
def avgError (msg : String) : SubParse :=
  .exited 1 .stderr (.errText (formatErr avgUsage msg))

/-- Apply the converter of a value-taking `average` option and check its
`choices`: `-s` and `-p` lowercase and strip the raw value before the
membership test (cli_parser.py lines 287-288 and 301-302); `-t` runs
`str_to_int_bounds_check(x, 1, 60)` (line 314). -/
def applyAvgValue (o : AvgOption) (v : String) (st : AvgState) :
    Except String AvgState :=
  match o with
  | .stats =>
    let w := lowerStrip v
    if avgFuncs.contains w then .ok {st with statistic := w}
    else .error (invalidChoiceMsg "-s/--stats" w avgFuncs)
  | .platform =>
    let w := lowerStrip v
    if platformChoices.contains w then .ok {st with platform := w}
    else .error (invalidChoiceMsg "-p/--platform" w platformChoices)
  | .timerange =>
    match str_to_int_bounds_check v min_time_range max_time_range with
    | .ok n => .ok {st with timerange := n}
    | .error m => .error ("argument -t/--timerange: " ++ m)
  | _ => .error "internal: option takes no value"

/-- Apply a zero-argument `average` flag, enforcing the mutual exclusion
of `-m` and `-r` (cli_parser.py line 323). -/
def applyAvgFlag (o : AvgOption) (st : AvgState) : Except String AvgState :=
  match o with
  | .maxrank =>
    if st.radiantSeen then
      .error "argument -m/--maxrank: not allowed with argument -r/--radiant"
    else .ok {st with maxrank := true, maxrankSeen := true}
  | .radiant =>
    if st.maxrankSeen then
      .error "argument -r/--radiant: not allowed with argument -m/--maxrank"
    else .ok {st with radiant := true, radiantSeen := true}
  | .buyers => .ok {st with use_buyers := true}
  | .detailed => .ok {st with detailed_report := true}
  | _ => .ok st

/-- Consume a positional token of the `average` subparser: the first one
fills `item` (stripped, cli_parser.py line 276); further positionals
have no slot and become leftovers. -/
def avgTakePositional (st : AvgState) (t : String) : AvgState :=
  match st.item with
  | none => {st with item := some (pyStrip t)}
  | some _ => {st with extras := st.extras ++ [t]}

/-- Finish the `average` parse: the required positional must be present
(argparse required-arguments check), otherwise the namespace is built. -/
def avgFinish (st : AvgState) : SubParse :=
  match st.item with
  | none => avgError "the following arguments are required: item"
  | some it =>
    .done { subparser := "average", item := it, statistic := st.statistic,
            platform := st.platform, timerange := st.timerange,
            maxrank := st.maxrank, radiant := st.radiant,
            use_buyers := st.use_buyers,
            detailed_report := st.detailed_report } st.extras

/-- Pass the outcome of applying one option to the continuation `k`, or
abort with the subparser error exit. -/
def avgValueCont (k : AvgState → Except SubParse (AvgState × List String)) :
    Except String AvgState → Except SubParse (AvgState × List String)
  | .ok st2 => k st2
  | .error m => .error (avgError m)

/-- Execute the resolved option actions of one `average` token in order:
help exits, flags update the state, and a value-taking option uses its
attached value or consumes the next token when that token is classified
as positional (otherwise argparse raises `expected one argument`). -/
def avgRunActs :
    List (AvgOption × Option String) → List String → AvgState →
    Except SubParse (AvgState × List String)
  | [], rest, st => .ok (st, rest)
  | (o, ex) :: more, rest, st =>
    if o = .helpA then
      match ex with
      | some v =>
        .error (avgError ("argument -h/--help: ignored explicit argument \x27"
          ++ v ++ "\x27"))
      | none => .error (.exited 0 .stdout (.helpText .average))
    else if avgTakesVal o then
      match ex with
      | some v =>
        avgValueCont (fun st2 => avgRunActs more rest st2)
          (applyAvgValue o v st)
      | none =>
        match rest with
        | [] =>
          .error (avgError ("argument " ++ avgDispName o
            ++ ": expected one argument"))
        | v :: rest2 =>
          if (avgResolve v).isPositionalTok then
            avgValueCont (fun st2 => avgRunActs more rest2 st2)
              (applyAvgValue o v st)
          else
            .error (avgError ("argument " ++ avgDispName o
              ++ ": expected one argument"))
    else
      match ex with
      | some v =>
        .error (avgError ("argument " ++ avgDispName o
          ++ ": ignored explicit argument \x27" ++ v ++ "\x27"))
      | none =>
        avgValueCont (fun st2 => avgRunActs more rest st2)
          (applyAvgFlag o st)

/-- Positional-only scan of the `average` subparser after `--`. -/
def avgScanPosOnly : List String → AvgState → SubParse
  | [], st => avgFinish st
  | t :: rest, st => avgScanPosOnly rest (avgTakePositional st t)

/-- Continue the token scan after one token's option actions ran. -/
def avgScanActs (k : List String → AvgState → SubParse) :
    Except SubParse (AvgState × List String) → SubParse
  | .error e => e
  | .ok (st2, rest2) => k rest2 st2

/-- Token scan of the `average` subparser.  `fuel` only bounds the
recursion and any value exceeding the token count is sufficient; each
step consumes at least one token. -/
def avgScan : Nat → List String → AvgState → SubParse
  | 0, _, st => avgFinish st
  | _ + 1, [], st => avgFinish st
  | fuel + 1, t :: rest, st =>
    if t = "--" then avgScanPosOnly rest st
    else
      match avgResolve t with
      | .positional => avgScan fuel rest (avgTakePositional st t)
      | .unknownOption => avgScan fuel rest {st with extras := st.extras ++ [t]}
      | .resolveFailure msg => avgError msg
      | .acts l => avgScanActs (avgScan fuel) (avgRunActs l rest st)

/-- Parse the token list handed to the `average` subparser. -/
def avgParse (tokens : List String) : SubParse :=
  avgScan (tokens.length + 1) tokens avgInit

/-- A parse error raised inside the `help` subparser (usage string
`warmac help subcommand`), again via `WarMACParser.error`, exit code 1. -/
def helpError (msg : String) : HelpParse :=
  .exited 1 .stderr (.errText (formatErr helpUsage msg))

/-- Consume a positional token of the `help` subparser: the optional
`subcommand` positional converts with `strip().lower()` and checks
`choices=("average", "help")` (cli_parser.py lines 398-405); a second
positional has no slot and becomes a leftover. -/
def helpTakePositional (sub : Option String) (extras : List String)
    (t : String) : Except HelpParse (Option String × List String) :=
  match sub with
  | none =>
    let w := stripLower t
    if _possible_subcommands.contains w then .ok (some w, extras)
    else .error (helpError (invalidChoiceMsg "subcommand" w
      _possible_subcommands))
  | some _ => .ok (sub, extras ++ [t])

/-- Positional-only scan of the `help` subparser after `--`. -/
def helpScanPosOnly : List String → Option String → List String → HelpParse
  | [], sub, extras => .done sub extras
  | t :: rest, sub, extras =>
    match helpTakePositional sub extras t with
    | .error e => e
    | .ok (sub2, extras2) => helpScanPosOnly rest sub2 extras2

/-- Token scan of the `help` subparser. -/
def helpScan : List String → Option String → List String → HelpParse
  | [], sub, extras => .done sub extras
  | t :: rest, sub, extras =>
    if t = "--" then helpScanPosOnly rest sub extras
    else
      match helpResolve t with
      | .positional =>
        match helpTakePositional sub extras t with
        | .error e => e
        | .ok (sub2, extras2) => helpScan rest sub2 extras2
      | .unknownOption => helpScan rest sub (extras ++ [t])
      | .resolveFailure msg => helpError msg
      | .acts l =>
        match l with
        | (_, some v) :: _ =>
          helpError ("argument -h/--help: ignored explicit argument \x27"
            ++ v ++ "\x27")
        | (_, none) :: _ => .exited 0 .stdout (.helpText .helpCmd)
        | [] => helpScan rest sub extras

/-- Parse the token list handed to the `help` subparser. -/
def helpParse (tokens : List String) : HelpParse :=
  helpScan tokens none []

/-- Result of `parser.parse_args` for the top-level parser: a process
exit, or a namespace (no subcommand, the `help` namespace, or the
`average` namespace). -/
inductive MainParse
  | exited (code : Nat) (stream : OutStream) (out : Output)
  | noSub
  | helpNs (sub : Option String)
  | avgNs (c : ParsedCommand)
deriving DecidableEq

/-- A parse error raised at the top level, via `WarMACParser.error`:
message to stderr, exit code 1 (cli_parser.py line 183). -/
def mainError (msg : String) : MainParse :=
  .exited 1 .stderr (.errText (formatErr mainUsage msg))

/-- After a successful parse, `parse_args` reports collected leftovers
as `unrecognized arguments` through the top-level parser's error. -/
def mainFinish (extras : List String) (r : MainParse) : MainParse :=
  if extras.isEmpty then r
  else mainError ("unrecognized arguments: " ++ joinSpaces extras)

/-- Lift the `average` subparser's outcome into the top-level parse. -/
def mainAfterAvg (extras : List String) : SubParse → MainParse
  | .exited c s o => .exited c s o
  | .done pc subExtras => mainFinish (extras ++ subExtras) (.avgNs pc)

/-- Lift the `help` subparser's outcome into the top-level parse. -/
def mainAfterHelp (extras : List String) : HelpParse → MainParse
  | .exited c s o => .exited c s o
  | .done sub subExtras => mainFinish (extras ++ subExtras) (.helpNs sub)

/-- The subcommand positional (argparse subparsers action, nargs=PARSER)
consumes the first positional token and hands every following token to
the named subparser; an unrecognised name is an `invalid choice` error
(the action's metavar is the empty string, hence `argument :`). -/
def mainDispatch (extras : List String) : List String → MainParse
  | [] => mainFinish extras .noSub
  | cmd :: rest =>
    if cmd = "average" then mainAfterAvg extras (avgParse rest)
    else if cmd = "help" then mainAfterHelp extras (helpParse rest)
    else mainError (invalidChoiceMsg "" cmd _possible_subcommands)

/-- Execute the first resolved top-level option action: `-h` prints the
top-level help to stdout and exits 0, `-V` prints the version text to
stdout and exits 0.  Returns `none` for an empty action list. -/
def mainRunActs (l : List (MainOption × Option String)) : Option MainParse :=
  match l with
  | [] => none
  | (o, ex) :: _ =>
    some (match ex with
      | some v =>
        mainError ("argument " ++ mainDispName o
          ++ ": ignored explicit argument \x27" ++ v ++ "\x27")
      | none =>
        match o with
        | .helpMain => .exited 0 .stdout (.helpText .main)
        | .versionMain => .exited 0 .stdout .versionText)

/-- Token scan of the top-level parser: options are consumed until the
first positional token, which together with everything after it is
handed to the subcommand dispatch. -/
def mainScan : List String → List String → MainParse
  | [], extras => mainFinish extras .noSub
  | t :: rest, extras =>
    if t = "--" then mainDispatch extras rest
    else
      match mainResolve t with
      | .positional => mainDispatch extras (t :: rest)
      | .unknownOption => mainScan rest (extras ++ [t])
      | .resolveFailure msg => mainError msg
      | .acts l =>
        match mainRunActs l with
        | some r => r
        | none => mainScan rest extras

/-- `parser.parse_args(args)` for the parser built by `_create_parser`. -/
def parse_args (args : List String) : MainParse := mainScan args []

/-- Result of `handle_input`: either the parsed namespace is returned to
the caller, or the process terminated after writing one output. -/
inductive RouterResult
  | ret (c : ParsedCommand)
  | exited (code : Nat) (stream : OutStream) (out : Output)
deriving DecidableEq

/-- The post-processing of the parsed namespace done by `handle_input`
(cli_parser.py lines 429-441): no subcommand prints the top-level help
to stderr and exits 1; the `help` subcommand with a recognised argument
re-parses `[subcommand, "--help"]` (which prints that subparser's help
to stdout and exits 0), and otherwise prints the top-level help to
stderr and exits 0; the `average` namespace is returned. -/
def routeParsed : MainParse → RouterResult
  | .exited c s o => .exited c s o
  | .noSub => .exited 1 .stderr (.helpText .main)
  | .helpNs (some s) =>
    (match parse_args [s, "--help"] with
     | .exited c st o => .exited c st o
     | _ => .exited 0 .stderr (.helpText .main))
  | .helpNs none => .exited 0 .stderr (.helpText .main)
  | .avgNs c => .ret c

/-- Embedding of `handle_input` (cli_parser.py lines 417-441). -/
def handle_input (args : List String) : RouterResult :=
  routeParsed (parse_args args)

/-! Claims about the command router. -/

/-- C1 (evaluation at the failing inputs): each class of parse error —
unrecognized subcommand, unrecognized option, malformed option value,
and both mutually exclusive flags — writes the formatted message
`"<usage>: error: <message>"` to the error stream, but the process
terminates with exit code 1 rather than the claimed code 2, because
`WarMACParser.error` calls `self.exit(1, ...)` (cli_parser.py line 183)
although its own docstring promises status code 2. -/
theorem warmac_parse_errors_exit_code_one :
    handle_input ["bogus"] = .exited 1 .stderr (.errText (formatErr mainUsage
      "argument : invalid choice: \x27bogus\x27 (choose from \x27average\x27, \x27help\x27)")) ∧
    handle_input ["average", "bite", "--zzz"] = .exited 1 .stderr
      (.errText (formatErr mainUsage "unrecognized arguments: --zzz")) ∧
    handle_input ["average", "bite", "-t", "0"] = .exited 1 .stderr
      (.errText (formatErr avgUsage
        ("argument -t/--timerange: " ++ boundsMsg "0" 1 60))) ∧
    handle_input ["average", "bite", "-m", "-r"] = .exited 1 .stderr
      (.errText (formatErr avgUsage
        "argument -r/--radiant: not allowed with argument -m/--maxrank")) := by
  refine ⟨by rfl, by rfl, by rfl, by rfl⟩

/-- C5: a token list that parses to no subcommand selected makes the
router print the top-level help to the error stream and exit with
code 1; in particular the empty token list does. -/
theorem handle_input_no_command_exit_one :
    (∀ ts, parse_args ts = MainParse.noSub →
      handle_input ts = .exited 1 .stderr (.helpText .main)) ∧
    handle_input [] = .exited 1 .stderr (.helpText .main) := by
  constructor
  · intro ts h
    unfold handle_input
    rw [h]
    rfl
  · rfl

/-- Witness: the empty token list parses to no subcommand and the
router exits with code 1 after printing help to stderr. -/
theorem handle_input_no_command_exit_one_witness :
    handle_input [] = .exited 1 .stderr (.helpText .main) :=
  handle_input_no_command_exit_one.1 [] (by rfl)

/-- C7: `["average", "bite"]` is returned to the caller as the parsed
namespace with every omitted option at its documented default. -/
theorem handle_input_average_defaults :
    handle_input ["average", "bite"] = .ret
      { subparser := "average", item := "bite", statistic := "median",
        platform := "pc", timerange := 10, maxrank := false,
        radiant := false, use_buyers := false,
        detailed_report := false } := by
  rfl

/-- C8: the router is deterministic — two invocations on identical token
lists that return a parsed namespace return structurally equal ones. -/
theorem handle_input_deterministic (ts : List String)
    (c1 c2 : ParsedCommand) (h1 : handle_input ts = .ret c1)
    (h2 : handle_input ts = .ret c2) : c1 = c2 := by
  rw [h1] at h2
  injection h2

/-- Witness: two runs on `["average", "bite"]` yield the same namespace. -/
theorem handle_input_deterministic_witness :
    ({ subparser := "average", item := "bite", statistic := "median",
       platform := "pc", timerange := 10, maxrank := false,
       radiant := false, use_buyers := false,
       detailed_report := false } : ParsedCommand)
    = { subparser := "average", item := "bite", statistic := "median",
        platform := "pc", timerange := 10, maxrank := false,
        radiant := false, use_buyers := false, detailed_report := false } :=
  handle_input_deterministic ["average", "bite"] _ _ (by rfl) (by rfl)

/-- C6: the `help` subcommand given an argument naming a recognized
subcommand prints that subcommand's own help text (equivalent to
`<subcommand> --help`) to stdout and exits 0; bare `help` prints the
top-level help text to the error stream and exits 0. -/
theorem handle_input_help_subcommand :
    (∀ s, helpResolve s = .positional → stripLower s = "average" →
      handle_input ["help", s] = .exited 0 .stdout (.helpText .average)) ∧
    (∀ s, helpResolve s = .positional → stripLower s = "help" →
      handle_input ["help", s] = .exited 0 .stdout (.helpText .helpCmd)) ∧
    handle_input ["help"] = .exited 0 .stderr (.helpText .main) := by
  have gen : ∀ (s tgt : String) (res : RouterResult),
      helpResolve s = .positional →
      _possible_subcommands.contains tgt = true →
      stripLower s = tgt →
      routeParsed (MainParse.helpNs (some tgt)) = res →
      handle_input ["help", s] = res := by
    intro s tgt res h1 hc h2 h3
    have hne : ¬s = "--" := by
      intro he; subst he; exact absurd h1 (by decide)
    have ht : helpTakePositional none [] s = .ok (some tgt, []) := by
      simp only [helpTakePositional, h2, hc]
      rfl
    have hp : helpParse [s] = HelpParse.done (some tgt) [] := by
      show helpScan [s] none [] = _
      simp only [helpScan]
      rw [if_neg hne, h1, ht]
    have hm : parse_args ["help", s] = MainParse.helpNs (some tgt) := by
      show mainScan ["help", s] [] = _
      have e1 : mainScan ["help", s] [] = mainAfterHelp [] (helpParse [s]) :=
        rfl
      rw [e1, hp]
      rfl
    unfold handle_input
    rw [hm, h3]
  refine ⟨fun s h1 h2 => gen s "average" _ h1 (by rfl) h2 (by rfl),
          fun s h1 h2 => gen s "help" _ h1 (by rfl) h2 (by rfl),
          by rfl⟩

/-- Witness: `["help", "average"]` prints the average help and exits 0. -/
theorem handle_input_help_subcommand_witness :
    handle_input ["help", "average"] = .exited 0 .stdout (.helpText .average) :=
  handle_input_help_subcommand.1 "average" (by rfl) (by rfl)

/-- C9: the values of `-s` and `-p` are lowercased and stripped before
the `choices` membership test, so any token whose normalization is a
valid choice is accepted and stored in normalized form; in particular
"MEDIAN" and " Pc " are accepted. -/
theorem average_choice_normalization :
    (∀ s, avgResolve s = .positional →
      avgFuncs.contains (lowerStrip s) = true →
      handle_input ["average", "it", "-s", s] = .ret
        { subparser := "average", item := "it", statistic := lowerStrip s,
          platform := "pc", timerange := 10, maxrank := false,
          radiant := false, use_buyers := false,
          detailed_report := false }) ∧
    (∀ s, avgResolve s = .positional →
      platformChoices.contains (lowerStrip s) = true →
      handle_input ["average", "it", "-p", s] = .ret
        { subparser := "average", item := "it", statistic := "median",
          platform := lowerStrip s, timerange := 10, maxrank := false,
          radiant := false, use_buyers := false,
          detailed_report := false }) ∧
    handle_input ["average", "it", "-s", "MEDIAN"] = .ret
      { subparser := "average", item := "it", statistic := "median",
        platform := "pc", timerange := 10, maxrank := false,
        radiant := false, use_buyers := false, detailed_report := false } ∧
    handle_input ["average", "it", "-p", " Pc "] = .ret
      { subparser := "average", item := "it", statistic := "median",
        platform := "pc", timerange := 10, maxrank := false,
        radiant := false, use_buyers := false, detailed_report := false } := by
  refine ⟨?_, ?_, by rfl, by rfl⟩
  · intro s h1 h2
    have hpos : (avgResolve s).isPositionalTok = true := by rw [h1]; rfl
    have hval : applyAvgValue AvgOption.stats s
        { item := some "it", statistic := "median", platform := "pc",
          timerange := 10, maxrank := false, radiant := false,
          use_buyers := false, detailed_report := false,
          maxrankSeen := false, radiantSeen := false, extras := [] }
        = .ok
        { item := some "it", statistic := lowerStrip s, platform := "pc",
          timerange := 10, maxrank := false, radiant := false,
          use_buyers := false, detailed_report := false,
          maxrankSeen := false, radiantSeen := false, extras := [] } := by
      simp only [applyAvgValue, h2]
      rfl
    have hrun : avgRunActs [(AvgOption.stats, none)] [s]
        { item := some "it", statistic := "median", platform := "pc",
          timerange := 10, maxrank := false, radiant := false,
          use_buyers := false, detailed_report := false,
          maxrankSeen := false, radiantSeen := false, extras := [] }
        = .ok
        ({ item := some "it", statistic := lowerStrip s, platform := "pc",
           timerange := 10, maxrank := false, radiant := false,
           use_buyers := false, detailed_report := false,
           maxrankSeen := false, radiantSeen := false, extras := [] },
         []) := by
      have e : avgRunActs [(AvgOption.stats, none)] [s]
          { item := some "it", statistic := "median", platform := "pc",
            timerange := 10, maxrank := false, radiant := false,
            use_buyers := false, detailed_report := false,
            maxrankSeen := false, radiantSeen := false, extras := [] }
          = (if (avgResolve s).isPositionalTok = true then
              avgValueCont (fun st2 => avgRunActs [] [] st2)
                (applyAvgValue AvgOption.stats s
                  { item := some "it", statistic := "median",
                    platform := "pc", timerange := 10, maxrank := false,
                    radiant := false, use_buyers := false,
                    detailed_report := false, maxrankSeen := false,
                    radiantSeen := false, extras := [] })
            else .error (avgError ("argument " ++ avgDispName AvgOption.stats
              ++ ": expected one argument"))) := rfl
      rw [e, hpos, hval]
      rfl
    have hp : avgParse ["it", "-s", s] = SubParse.done
        { subparser := "average", item := "it", statistic := lowerStrip s,
          platform := "pc", timerange := 10, maxrank := false,
          radiant := false, use_buyers := false, detailed_report := false }
        [] := by
      show avgScan 4 ["it", "-s", s] avgInit = _
      have e1 : avgScan 4 ["it", "-s", s] avgInit
          = avgScanActs (avgScan 2) (avgRunActs [(AvgOption.stats, none)] [s]
              { item := some "it", statistic := "median", platform := "pc",
                timerange := 10, maxrank := false, radiant := false,
                use_buyers := false, detailed_report := false,
                maxrankSeen := false, radiantSeen := false,
                extras := [] }) := rfl
      rw [e1, hrun]
      rfl
    have hm : parse_args ["average", "it", "-s", s] = MainParse.avgNs
        { subparser := "average", item := "it", statistic := lowerStrip s,
          platform := "pc", timerange := 10, maxrank := false,
          radiant := false, use_buyers := false,
          detailed_report := false } := by
      show mainScan ["average", "it", "-s", s] [] = _
      have e2 : mainScan ["average", "it", "-s", s] []
          = mainAfterAvg [] (avgParse ["it", "-s", s]) := rfl
      rw [e2, hp]
      rfl
    unfold handle_input
    rw [hm]
    rfl
  · intro s h1 h2
    have hpos : (avgResolve s).isPositionalTok = true := by rw [h1]; rfl
    have hval : applyAvgValue AvgOption.platform s
        { item := some "it", statistic := "median", platform := "pc",
          timerange := 10, maxrank := false, radiant := false,
          use_buyers := false, detailed_report := false,
          maxrankSeen := false, radiantSeen := false, extras := [] }
        = .ok
        { item := some "it", statistic := "median",
          platform := lowerStrip s, timerange := 10, maxrank := false,
          radiant := false, use_buyers := false, detailed_report := false,
          maxrankSeen := false, radiantSeen := false, extras := [] } := by
      simp only [applyAvgValue, h2]
      rfl
    have hrun : avgRunActs [(AvgOption.platform, none)] [s]
        { item := some "it", statistic := "median", platform := "pc",
          timerange := 10, maxrank := false, radiant := false,
          use_buyers := false, detailed_report := false,
          maxrankSeen := false, radiantSeen := false, extras := [] }
        = .ok
        ({ item := some "it", statistic := "median",
           platform := lowerStrip s, timerange := 10, maxrank := false,
           radiant := false, use_buyers := false, detailed_report := false,
           maxrankSeen := false, radiantSeen := false, extras := [] },
         []) := by
      have e : avgRunActs [(AvgOption.platform, none)] [s]
          { item := some "it", statistic := "median", platform := "pc",
            timerange := 10, maxrank := false, radiant := false,
            use_buyers := false, detailed_report := false,
            maxrankSeen := false, radiantSeen := false, extras := [] }
          = (if (avgResolve s).isPositionalTok = true then
              avgValueCont (fun st2 => avgRunActs [] [] st2)
                (applyAvgValue AvgOption.platform s
                  { item := some "it", statistic := "median",
                    platform := "pc", timerange := 10, maxrank := false,
                    radiant := false, use_buyers := false,
                    detailed_report := false, maxrankSeen := false,
                    radiantSeen := false, extras := [] })
            else .error (avgError
              ("argument " ++ avgDispName AvgOption.platform
                ++ ": expected one argument"))) := rfl
      rw [e, hpos, hval]
      rfl
    have hp : avgParse ["it", "-p", s] = SubParse.done
        { subparser := "average", item := "it", statistic := "median",
          platform := lowerStrip s, timerange := 10, maxrank := false,
          radiant := false, use_buyers := false, detailed_report := false }
        [] := by
      show avgScan 4 ["it", "-p", s] avgInit = _
      have e1 : avgScan 4 ["it", "-p", s] avgInit
          = avgScanActs (avgScan 2)
              (avgRunActs [(AvgOption.platform, none)] [s]
              { item := some "it", statistic := "median", platform := "pc",
                timerange := 10, maxrank := false, radiant := false,
                use_buyers := false, detailed_report := false,
                maxrankSeen := false, radiantSeen := false,
                extras := [] }) := rfl
      rw [e1, hrun]
      rfl
    have hm : parse_args ["average", "it", "-p", s] = MainParse.avgNs
        { subparser := "average", item := "it", statistic := "median",
          platform := lowerStrip s, timerange := 10, maxrank := false,
          radiant := false, use_buyers := false,
          detailed_report := false } := by
      show mainScan ["average", "it", "-p", s] [] = _
      have e2 : mainScan ["average", "it", "-p", s] []
          = mainAfterAvg [] (avgParse ["it", "-p", s]) := rfl
      rw [e2, hp]
      rfl
    unfold handle_input
    rw [hm]
    rfl

/-- Witness: the mixed-case and padded inputs are accepted and stored
lowercased and stripped. -/
theorem average_choice_normalization_witness :
    handle_input ["average", "it", "-s", "MEDIAN"] = .ret
      { subparser := "average", item := "it",
        statistic := lowerStrip "MEDIAN", platform := "pc", timerange := 10,
        maxrank := false, radiant := false, use_buyers := false,
        detailed_report := false } ∧
    handle_input ["average", "it", "-p", " Pc "] = .ret
      { subparser := "average", item := "it", statistic := "median",
        platform := lowerStrip " Pc ", timerange := 10, maxrank := false,
        radiant := false, use_buyers := false, detailed_report := false } :=
  ⟨average_choice_normalization.1 "MEDIAN" (by rfl) (by rfl),
   (average_choice_normalization.2.1 " Pc " (by rfl) (by rfl))⟩
